import Mathlib

/-!
Verification of the module / file-unit core of a compiler front end
(`include/swift/AST/Module.h`): access paths, imported-module records and
their deduplication equality, the module entry-point latch, import filters,
the file-unit query surface, and the visible-module traversal.

Pointers are modelled by natural numbers (identity only), identifiers by
strings, and source locations by natural numbers.  Assertions in the C++
source are modelled by `Option`-returning operations where `none` is the
programming-error trap.
-/

namespace SwiftModule

/-- `swift::Identifier`: an interned name; identity is string identity. -/
abbrev Identifier := String

/-- `swift::SourceLoc`, modelled as an opaque number; equality rules that
"ignore source locations" must not depend on this component. -/
abbrev SourceLoc := Nat

/-- `swift::DeclName`, kept abstract: only the matching relation
`DeclName::matchesRef` is relevant here, and it is passed in as a function. -/
abbrev DeclName := Nat

/-- A `swift::ValueDecl *`, modelled by its pointer identity. -/
abbrev ValueDecl := Nat

/-- A `swift::ModuleDecl *`, modelled by its pointer identity. -/
abbrev ModulePtr := Nat

/-- `ModuleDecl::AccessPathTy = ArrayRef<std::pair<Identifier, SourceLoc>>`. -/
abbrev AccessPathTy := List (Identifier × SourceLoc)

/-- `ModuleDecl::ImportedModule = std::pair<AccessPathTy, ModuleDecl*>`. -/
abbrev ImportedModule := AccessPathTy × ModulePtr

namespace ModuleDecl

/-- `ModuleDecl::matchesAccessPath`.  The C++ body asserts
`AccessPath.size() <= 1` and then returns
`AccessPath.empty() || DeclName(AccessPath.front().first).matchesRef(Name)`.
The assertion failure is modelled as `none`; `matchesRef` (defined outside
this header) is passed in as `matchesRef`. -/
def matchesAccessPath (matchesRef : Identifier → DeclName → Bool)
    (accessPath : AccessPathTy) (name : DeclName) : Option Bool :=
  if accessPath.length ≤ 1 then
    some (match accessPath with
      | [] => true
      | e :: _ => matchesRef e.1 name)
  else none

/-- Modelled from the spec: the body of `ModuleDecl::isSameAccessPath` is in
`lib/AST/Module.cpp`, which is not part of the provided sources.  The header
documents it as "Returns true if the two access paths contain the same chain
of identifiers.  Source locations are ignored here." -/
def isSameAccessPath (lhs rhs : AccessPathTy) : Bool :=
  decide (lhs.map Prod.fst = rhs.map Prod.fst)

end ModuleDecl

/-- `llvm::DenseMapInfo<swift::ModuleDecl::ImportedModule>::isEqual`:
`lhs.second == rhs.second && ModuleDecl::isSameAccessPath(lhs.first, rhs.first)`. -/
def importedModuleIsEqual (lhs rhs : ImportedModule) : Bool :=
  decide (lhs.2 = rhs.2) && ModuleDecl.isSameAccessPath lhs.1 rhs.1

/-- `ModuleDecl::EntryPointInfoTy`: a `PointerIntPair` of the entry-point
file and the two diagnosed-conflict flags. -/
structure EntryPointInfoTy where
  entryPointFile : Option Nat
  diagnosedMultipleMainClasses : Bool
  diagnosedMainClassWithScript : Bool
  deriving DecidableEq, Repr

namespace EntryPointInfoTy

/-- `EntryPointInfoTy()` default-constructs a null pointer and clear flags. -/
def init : EntryPointInfoTy := ⟨none, false, false⟩

/-- `EntryPointInfoTy::getEntryPointFile`: `storage.getPointer()`. -/
def getEntryPointFile (s : EntryPointInfoTy) : Option Nat :=
  s.entryPointFile

/-- `EntryPointInfoTy::setEntryPointFile`: `assert(!storage.getPointer());
storage.setPointer(file)`.  The assertion failure is modelled as `none`. -/
def setEntryPointFile (s : EntryPointInfoTy) (file : Nat) :
    Option EntryPointInfoTy :=
  if s.entryPointFile.isNone then
    some { s with entryPointFile := some file }
  else none

/-- `EntryPointInfoTy::hasEntryPoint`: `storage.getPointer()` as a Bool. -/
def hasEntryPoint (s : EntryPointInfoTy) : Bool :=
  s.entryPointFile.isSome

/-- `EntryPointInfoTy::markDiagnosedMultipleMainClasses`: reads the flag,
sets it, and returns the negation of the old value. -/
def markDiagnosedMultipleMainClasses (s : EntryPointInfoTy) :
    EntryPointInfoTy × Bool :=
  let res := s.diagnosedMultipleMainClasses
  ({ s with diagnosedMultipleMainClasses := true }, !res)

/-- `EntryPointInfoTy::markDiagnosedMainClassWithScript`: reads the flag,
sets it, and returns the negation of the old value. -/
def markDiagnosedMainClassWithScript (s : EntryPointInfoTy) :
    EntryPointInfoTy × Bool :=
  let res := s.diagnosedMainClassWithScript
  ({ s with diagnosedMainClassWithScript := true }, !res)

end EntryPointInfoTy

/-- `SourceFile::ImportFlags`, an `OptionSet` of the four per-edge flags. -/
structure ImportOptions where
  exported : Bool
  testable : Bool
  privateImport : Bool
  implementationOnly : Bool
  deriving DecidableEq, Repr

/-- `SourceFile::ImportedModuleDesc`: an import edge with its flags and the
originating filename. -/
structure ImportedModuleDesc where
  module : ImportedModule
  importOptions : ImportOptions
  filename : String
  deriving DecidableEq, Repr

/-- The `ImportedModuleDesc` constructor; its body asserts
`!(importOptions.contains(Exported) && importOptions.contains(ImplementationOnly))`.
The assertion failure is modelled as `none`. -/
def ImportedModuleDesc.make (module : ImportedModule)
    (options : ImportOptions) (filename : String) :
    Option ImportedModuleDesc :=
  if options.exported && options.implementationOnly then none
  else some ⟨module, options, filename⟩

/-- `swift::SourceFileKind`. -/
inductive SourceFileKind where
  | Library
  | Main
  | REPL
  | SIL
  | Interface
  deriving DecidableEq, Repr

/-- `ModuleDecl::ImportFilterKind`: which classes of import edges a query
includes. -/
inductive ImportFilterKind where
  | Public
  | Private
  | ImplementationOnly
  deriving DecidableEq, Repr

/-- `ModuleDecl::ImportFilter = OptionSet<ImportFilterKind>`. -/
structure ImportFilter where
  hasPublic : Bool
  hasPrivate : Bool
  hasImplementationOnly : Bool
  deriving DecidableEq, Repr

namespace ImportFilter

/-- `OptionSet::contains` for an `ImportFilter`. -/
def contains (f : ImportFilter) : ImportFilterKind → Bool
  | .Public => f.hasPublic
  | .Private => f.hasPrivate
  | .ImplementationOnly => f.hasImplementationOnly

/-- The filter `ModuleDecl::ImportFilterKind::Public` used as the default
argument of `ModuleDecl::getImportedModules` and in the default body of
`FileUnit::getImportedModulesForLookup`. -/
def publicOnly : ImportFilter := ⟨true, false, false⟩

end ImportFilter

/-- Modelled from the spec: the classification of a stored import edge's
flags into an `ImportFilterKind`; the classifying code is in
`lib/AST/Module.cpp`, absent from the provided sources.  Per the spec,
`Public` covers `@_exported` edges, `ImplementationOnly` covers
`@_implementationOnly` edges, and `Private` covers regular imports. -/
def importFilterKindOf (o : ImportOptions) : ImportFilterKind :=
  if o.implementationOnly then .ImplementationOnly
  else if o.exported then .Public
  else .Private

/-- The `SourceFile` state relevant here: its kind, its `MainClass`, and its
`Imports` list. -/
structure SourceFile where
  kind : SourceFileKind
  mainClass : Option Nat
  imports : List ImportedModuleDesc
  deriving DecidableEq, Repr

namespace SourceFile

/-- `SourceFile::isScriptMode`: switches on the file kind; `Main` and `REPL`
are script mode, `Library`, `Interface` and `SIL` are not. -/
def isScriptMode (sf : SourceFile) : Bool :=
  match sf.kind with
  | .Main => true
  | .REPL => true
  | .Library => false
  | .Interface => false
  | .SIL => false

/-- `SourceFile::getMainClass` (overrides the `FileUnit` default): returns
the stored `MainClass` pointer. -/
def getMainClass (sf : SourceFile) : Option Nat :=
  sf.mainClass

/-- `FileUnit::hasMainClass`: `return getMainClass();` — pointer truthiness,
resolved through the `SourceFile` override. -/
def hasMainClass (sf : SourceFile) : Bool :=
  sf.getMainClass.isSome

/-- `SourceFile::hasEntryPoint` (overrides the `FileUnit` default):
`isScriptMode() || hasMainClass()`. -/
def hasEntryPoint (sf : SourceFile) : Bool :=
  sf.isScriptMode || sf.hasMainClass

/-- Modelled from the spec: the body of `SourceFile::getImportedModules` is
in `lib/AST/Module.cpp`, absent from the provided sources.  Per the spec it
returns the stored import edges whose flag classification passes the filter. -/
def getImportedModules (sf : SourceFile) (filter : ImportFilter) :
    List ImportedModule :=
  (sf.imports.filter
    (fun d => filter.contains (importFilterKindOf d.importOptions))).map
    (fun d => d.module)

end SourceFile

/-- `swift::LoadedFile` state: the `FilenameForPrivateDecls` map, modelled
as a function to `Option Identifier` (`none` = not in the map). -/
structure LoadedFile where
  filenameForPrivateDecls : ValueDecl → Option Identifier

namespace LoadedFile

/-- `LoadedFile::addFilenameForPrivateDecl`: asserts that `decl` is unmapped
or already mapped to `id`, then stores `FilenameForPrivateDecls[decl] = id`.
The assertion failure is modelled as `none`. -/
def addFilenameForPrivateDecl (lf : LoadedFile) (decl : ValueDecl)
    (id : Identifier) : Option LoadedFile :=
  if lf.filenameForPrivateDecls decl = none ∨
      lf.filenameForPrivateDecls decl = some id then
    some ⟨fun d => if d = decl then some id else lf.filenameForPrivateDecls d⟩
  else none

/-- `LoadedFile::getFilenameForPrivateDecl`: returns the mapped identifier's
string, or the empty `StringRef` when `decl` is not in the map. -/
def getFilenameForPrivateDecl (lf : LoadedFile) (decl : ValueDecl) : String :=
  match lf.filenameForPrivateDecls decl with
  | none => ""
  | some id => id

end LoadedFile

/-- The non-`Source` discriminators of `swift::FileUnitKind`. -/
inductive LoadedFileKind where
  | SerializedAST
  | ClangModule
  | DWARFModule
  deriving DecidableEq, Repr

/-- `swift::FileUnit` and its concrete variants. -/
inductive FileUnit where
  | source (sf : SourceFile)
  | builtin
  | loaded (k : LoadedFileKind) (lf : LoadedFile)

namespace FileUnit

/-- `FileUnit::hasEntryPoint` dispatch: the base-class default returns
`false`; only `SourceFile` overrides it. -/
def hasEntryPoint : FileUnit → Bool
  | .source sf => sf.hasEntryPoint
  | .builtin => false
  | .loaded _ _ => false

/-- `FileUnit::getImportedModules` dispatch: the base-class default appends
nothing; only `SourceFile` overrides it. -/
def getImportedModules : FileUnit → ImportFilter → List ImportedModule
  | .source sf, filter => sf.getImportedModules filter
  | .builtin, _ => []
  | .loaded _ _, _ => []

/-- `FileUnit::getImportedModulesForLookup`: the default body, used by every
variant in this header (none overrides it), is
`getImportedModules(imports, ModuleDecl::ImportFilterKind::Public)`. -/
def getImportedModulesForLookup (fu : FileUnit) : List ImportedModule :=
  fu.getImportedModules ImportFilter.publicOnly

end FileUnit

/-- `BuiltinUnit::getDiscriminatorForPrivateValue`: its entire body is
`llvm_unreachable("no private values in the Builtin module")`; the trap is
modelled as `none` — no argument produces an identifier. -/
def BuiltinUnit.getDiscriminatorForPrivateValue (_ : ValueDecl) :
    Option Identifier :=
  none

/-- The `ModuleDecl` state relevant here: its file units and entry-point
record. -/
structure ModuleDeclState where
  files : List FileUnit
  entryPointInfo : EntryPointInfoTy

/-- `ModuleDecl::removeDuplicateImports`: uniques the items, ignoring the
source locations of the access paths (keeps the first of each equality
class under the `DenseMapInfo` equality). -/
def removeDuplicateImports (l : List ImportedModule) : List ImportedModule :=
  l.foldl
    (fun acc i => if acc.any (fun j => importedModuleIsEqual j i) then acc
                  else acc ++ [i]) []

namespace ModuleDeclState

/-- Modelled from the spec: the body of `ModuleDecl::getImportedModules` is
in `lib/AST/Module.cpp`, absent from the provided sources.  Per the spec it
is the union of each file's import list matching the filter, deduplicated by
the path-equality rule. -/
def getImportedModules (m : ModuleDeclState) (filter : ImportFilter) :
    List ImportedModule :=
  removeDuplicateImports
    (m.files.flatMap (fun fu => fu.getImportedModules filter))

/-- `ModuleDecl::getImportedModules` invoked with its default argument,
which the header declares as `ImportFilterKind::Public`. -/
def getImportedModulesDefault (m : ModuleDeclState) : List ImportedModule :=
  m.getImportedModules ImportFilter.publicOnly

end ModuleDeclState

/-! ## The visible-module traversal -/

/-- The deduplication key of an `ImportedModule`: its chain of access-path
identifiers (source locations dropped) together with its module pointer. -/
def visitKey (i : ImportedModule) : List Identifier × ModulePtr :=
  (i.1.map Prod.fst, i.2)

/-- An import graph for the visible-module traversal: module `m`'s
lookup-relevant import edges (the `Public ∪ Private` edges the spec says
the traversal follows) are `g.getD m []`. -/
abbrev ImportGraph := List (List ImportedModule)

/-- Modelled from the spec: the worklist loop of
`ModuleDecl::forAllVisibleModules`, whose body is in `lib/AST/Module.cpp`,
absent from the provided sources.  Per the spec it visits each distinct
(access-path, module) pair at most once under the path-equality rule,
invokes the callback on each newly seen pair, stops early when the callback
returns `false`, and otherwise pushes the pair's lookup-relevant imports.
`visited` accumulates the pairs the callback has been invoked on; the fuel
argument makes the recursion structural and is discharged by
`visitFuel`. -/
def visitGo (g : ImportGraph) (fn : ImportedModule → Bool) :
    Nat → List ImportedModule → List ImportedModule →
    Option (Bool × List ImportedModule)
  | 0, _, _ => none
  | _ + 1, [], visited => some (true, visited)
  | fuel + 1, i :: stack, visited =>
    if visitKey i ∈ visited.map visitKey then
      visitGo g fn fuel stack visited
    else if fn i then
      visitGo g fn fuel ((g.getD i.2 []) ++ stack) (i :: visited)
    else some (false, i :: visited)

/-- Fuel sufficient for `visitGo` to run to completion: one more than the
measure `stack.length + availCount * (edges + 1)` of the initial state. -/
def visitFuel (g : ImportGraph) (start : List ImportedModule) : Nat :=
  start.length +
    (start.length + g.flatten.length) * (g.flatten.length + 1) + 1

/-- Modelled from the spec: `ModuleDecl::forAllVisibleModules`, whose body
is in `lib/AST/Module.cpp`, absent from the provided sources.  It includes
the top-level module itself under `topLevelAccessPath` and traverses the
lookup-relevant import graph from there.  The C++ function returns only the
completion Bool; the model also returns the list of pairs the callback was
invoked on, so that the visit-at-most-once property can be stated. -/
def ModuleDecl.forAllVisibleModules (g : ImportGraph)
    (topLevelAccessPath : AccessPathTy) (m : ModulePtr)
    (fn : ImportedModule → Bool) : Option (Bool × List ImportedModule) :=
  visitGo g fn (visitFuel g [(topLevelAccessPath, m)])
    [(topLevelAccessPath, m)] []

/-- The number of dedup keys from `U` not yet visited. -/
def availCount (U : List (List Identifier × ModulePtr))
    (visited : List ImportedModule) : Nat :=
  (U.filter (fun k => decide (k ∉ visited.map visitKey))).length

/-! ## Lemmas about the traversal -/

/-- Visiting a genuinely new pair strictly shrinks the unvisited-key count. -/
lemma availCount_cons_lt (U : List (List Identifier × ModulePtr))
    (visited : List ImportedModule) (i : ImportedModule)
    (hU : visitKey i ∈ U) (hnv : visitKey i ∉ visited.map visitKey) :
    availCount U (i :: visited) < availCount U visited := by
  unfold availCount
  have hsub : List.Sublist
      (U.filter (fun k => decide (k ∉ (i :: visited).map visitKey)))
      (U.filter (fun k => decide (k ∉ visited.map visitKey))) := by
    apply List.monotone_filter_right
    intro a ha
    simp only [List.map_cons, decide_eq_true_eq, List.mem_cons, not_or] at ha ⊢
    exact ha.2
  refine Nat.lt_of_le_of_ne hsub.length_le ?_
  intro heq
  have hlists := (List.Sublist.length_eq hsub).mp heq
  have hiold : visitKey i ∈
      U.filter (fun k => decide (k ∉ visited.map visitKey)) := by
    simp only [List.mem_filter, decide_eq_true_eq]
    exact ⟨hU, hnv⟩
  rw [← hlists] at hiold
  simp [List.mem_filter] at hiold

/-- The imports of any one module are no longer than all edges together. -/
lemma getD_length_le (g : ImportGraph) (m : Nat) :
    (g.getD m []).length ≤ g.flatten.length := by
  rcases Nat.lt_or_ge m g.length with hm | hm
  · rw [List.getD_eq_getElem g [] hm, List.length_flatten]
    exact List.single_le_sum (fun n _ => Nat.zero_le n) _
      (List.mem_map_of_mem _ (g.getElem_mem hm))
  · rw [List.getD_eq_default g [] hm]
    exact Nat.zero_le _

/-- Any pushed edge is one of the graph's edges. -/
lemma mem_getD_flatten (g : ImportGraph) (m : Nat) (i : ImportedModule)
    (h : i ∈ g.getD m []) : i ∈ g.flatten := by
  rcases Nat.lt_or_ge m g.length with hm | hm
  · rw [List.getD_eq_getElem g [] hm] at h
    exact List.mem_flatten.mpr ⟨_, g.getElem_mem hm, h⟩
  · rw [List.getD_eq_default g [] hm] at h
    simp at h

/-- Termination of the worklist loop: with fuel above the decreasing
measure `stack.length + availCount * (edges + 1)`, the loop never runs
out of fuel. -/
lemma visitGo_ne_none (g : ImportGraph) (fn : ImportedModule → Bool)
    (U : List (List Identifier × ModulePtr))
    (hJ : ∀ i ∈ g.flatten, visitKey i ∈ U) :
    ∀ (fuel : Nat) (stack visited : List ImportedModule),
      (∀ i ∈ stack, visitKey i ∈ U) →
      stack.length + availCount U visited * (g.flatten.length + 1) < fuel →
      visitGo g fn fuel stack visited ≠ none := by
  intro fuel
  induction fuel with
  | zero =>
    intro stack visited _ hlt
    exact absurd hlt (Nat.not_lt_zero _)
  | succ fuel ih =>
    intro stack visited hstack hlt
    cases stack with
    | nil => simp [visitGo]
    | cons i stack =>
      simp only [visitGo]
      by_cases hv : visitKey i ∈ visited.map visitKey
      · rw [if_pos hv]
        refine ih stack visited
          (fun j hj => hstack j (List.mem_cons_of_mem _ hj)) ?_
        simp only [List.length_cons] at hlt
        omega
      · rw [if_neg hv]
        by_cases hfn : fn i = true
        · rw [if_pos hfn]
          refine ih (g.getD i.2 [] ++ stack) (i :: visited) ?_ ?_
          · intro j hj
            rcases List.mem_append.mp hj with hj | hj
            · exact hJ j (mem_getD_flatten g _ j hj)
            · exact hstack j (List.mem_cons_of_mem _ hj)
          · have hrow := getD_length_le g i.2
            have hA := availCount_cons_lt U visited i
              (hstack i (List.mem_cons_self _ _)) hv
            have hmul : availCount U (i :: visited) * (g.flatten.length + 1)
                + (g.flatten.length + 1)
                ≤ availCount U visited * (g.flatten.length + 1) := by
              calc availCount U (i :: visited) * (g.flatten.length + 1)
                  + (g.flatten.length + 1)
                  = (availCount U (i :: visited) + 1) * (g.flatten.length + 1) := by
                    ring
                _ ≤ availCount U visited * (g.flatten.length + 1) :=
                    Nat.mul_le_mul_right _ hA
            simp only [List.length_cons, List.length_append] at hlt ⊢
            linarith
        · rw [if_neg hfn]
          simp

/-- The visited list only ever grows by pairs whose key is new, so its keys
stay pairwise distinct. -/
lemma visitGo_nodup (g : ImportGraph) (fn : ImportedModule → Bool) :
    ∀ (fuel : Nat) (stack visited : List ImportedModule) (b : Bool)
      (out : List ImportedModule),
      (visited.map visitKey).Nodup →
      visitGo g fn fuel stack visited = some (b, out) →
      (out.map visitKey).Nodup := by
  intro fuel
  induction fuel with
  | zero =>
    intro stack visited b out _ h
    simp [visitGo] at h
  | succ fuel ih =>
    intro stack visited b out hnd h
    cases stack with
    | nil =>
      simp only [visitGo, Option.some.injEq, Prod.mk.injEq] at h
      rw [← h.2]
      exact hnd
    | cons i stack =>
      simp only [visitGo] at h
      by_cases hv : visitKey i ∈ visited.map visitKey
      · rw [if_pos hv] at h
        exact ih stack visited b out hnd h
      · rw [if_neg hv] at h
        by_cases hfn : fn i = true
        · rw [if_pos hfn] at h
          refine ih _ (i :: visited) b out ?_ h
          simp only [List.map_cons, List.nodup_cons]
          exact ⟨hv, hnd⟩
        · rw [if_neg hfn] at h
          simp only [Option.some.injEq, Prod.mk.injEq] at h
          rw [← h.2]
          simp only [List.map_cons, List.nodup_cons]
          exact ⟨hv, hnd⟩

/-- The loop's Bool is `true` exactly when the callback returned `true` on
every pair visited during this call. -/
lemma visitGo_completion (g : ImportGraph) (fn : ImportedModule → Bool) :
    ∀ (fuel : Nat) (stack visited : List ImportedModule) (b : Bool)
      (out : List ImportedModule),
      visitGo g fn fuel stack visited = some (b, out) →
      ∃ newV, out = newV ++ visited ∧
        (b = true ↔ ∀ i ∈ newV, fn i = true) := by
  intro fuel
  induction fuel with
  | zero =>
    intro stack visited b out h
    simp [visitGo] at h
  | succ fuel ih =>
    intro stack visited b out h
    cases stack with
    | nil =>
      simp only [visitGo, Option.some.injEq, Prod.mk.injEq] at h
      refine ⟨[], by simp [h.2], ?_⟩
      simp [← h.1]
    | cons i stack =>
      simp only [visitGo] at h
      by_cases hv : visitKey i ∈ visited.map visitKey
      · rw [if_pos hv] at h
        exact ih stack visited b out h
      · rw [if_neg hv] at h
        by_cases hfn : fn i = true
        · rw [if_pos hfn] at h
          obtain ⟨newV, hout, hiff⟩ := ih _ (i :: visited) b out h
          refine ⟨newV ++ [i], ?_, ?_⟩
          · rw [hout]
            simp
          · rw [hiff]
            constructor
            · intro H j hj
              rcases List.mem_append.mp hj with hj | hj
              · exact H j hj
              · rw [List.mem_singleton] at hj
                rw [hj]
                exact hfn
            · intro H j hj
              exact H j (List.mem_append_left _ hj)
        · rw [if_neg hfn] at h
          simp only [Option.some.injEq, Prod.mk.injEq] at h
          refine ⟨[i], by simp [← h.2], ?_⟩
          rw [← h.1]
          simp [hfn]

/-- The `DenseMapInfo` equality coincides with equality of dedup keys. -/
lemma importedModuleIsEqual_iff_visitKey (i j : ImportedModule) :
    importedModuleIsEqual i j = true ↔ visitKey i = visitKey j := by
  simp only [importedModuleIsEqual, ModuleDecl.isSameAccessPath, visitKey,
    Bool.and_eq_true, decide_eq_true_eq, Prod.mk.injEq]
  exact and_comm

/-! ## Claim theorems -/

/-- **C1**: For every module graph, including cyclic ones,
`forAllVisibleModules` terminates with a result, invokes its callback on
each distinct (access-path, module) pair at most once under the
path-equality rule (no two visited pairs are equal under the
location-ignoring `DenseMapInfo` equality), and returns `true` if and only
if the callback never signalled stop, i.e. it ran to completion. -/
theorem C1_forAllVisibleModules_terminates_dedups_completes
    (g : ImportGraph) (topLevelAccessPath : AccessPathTy) (m : ModulePtr)
    (fn : ImportedModule → Bool) :
    ∃ (completed : Bool) (visited : List ImportedModule),
      ModuleDecl.forAllVisibleModules g topLevelAccessPath m fn
        = some (completed, visited) ∧
      List.Pairwise (fun i j => importedModuleIsEqual i j = false) visited ∧
      (completed = true ↔ ∀ i ∈ visited, fn i = true) := by
  have hne : visitGo g fn (visitFuel g [(topLevelAccessPath, m)])
      [(topLevelAccessPath, m)] [] ≠ none := by
    refine visitGo_ne_none g fn
      (([(topLevelAccessPath, m)] ++ g.flatten).map visitKey) ?_ _ _ _ ?_ ?_
    · intro i hi
      exact List.mem_map_of_mem _ (List.mem_append_right _ hi)
    · intro i hi
      rw [List.mem_singleton] at hi
      subst hi
      exact List.mem_map_of_mem _
        (List.mem_append_left _ (List.mem_singleton_self _))
    · have havail :
          availCount (([(topLevelAccessPath, m)] ++ g.flatten).map visitKey) []
            = (([(topLevelAccessPath, m)] ++ g.flatten).map visitKey).length := by
        simp only [availCount, List.map_nil, List.not_mem_nil,
          not_false_eq_true, decide_True, List.filter_true]
      rw [havail]
      simp only [List.length_map, List.length_append, List.length_cons,
        List.length_nil, List.length_singleton, visitFuel]
      linarith
  obtain ⟨⟨b, out⟩, hsome⟩ := Option.ne_none_iff_exists'.mp hne
  refine ⟨b, out, hsome, ?_, ?_⟩
  · have hnd := visitGo_nodup g fn _ _ _ _ _ (by simp) hsome
    have hpw := List.pairwise_map.mp hnd
    refine hpw.imp ?_
    intro a c hac
    rw [Bool.eq_false_iff]
    intro htrue
    exact hac ((importedModuleIsEqual_iff_visitKey a c).mp htrue)
  · obtain ⟨newV, hout, hiff⟩ := visitGo_completion g fn _ _ _ _ _ hsome
    rw [List.append_nil] at hout
    subst hout
    exact hiff

/-- **C2**: two `ImportedModule` records are equal under the deduplication
equality used for sets and maps iff their module pointers are identical and
their access paths carry the same chain of identifiers, source locations
ignored; in particular two records differing only in access-path source
locations are equal. -/
theorem C2_importedModule_dedup_equality :
    (∀ lhs rhs : ImportedModule,
      importedModuleIsEqual lhs rhs = true ↔
        lhs.2 = rhs.2 ∧ lhs.1.map Prod.fst = rhs.1.map Prod.fst) ∧
    (∀ (m : ModulePtr) (i : Identifier) (a b : SourceLoc),
      importedModuleIsEqual ([(i, a)], m) ([(i, b)], m) = true) := by
  constructor
  · intro lhs rhs
    simp [importedModuleIsEqual, ModuleDecl.isSameAccessPath]
  · intro m i a b
    simp [importedModuleIsEqual, ModuleDecl.isSameAccessPath]

/-- **C3**: the module-wide entry-point record is a write-once latch: a
successful `setEntryPointFile` requires that no entry-point file was
stored, stores the file, and afterwards the stored file never changes — a
second store is the assertion trap and the two mark operations leave the
pointer untouched. -/
theorem C3_entryPoint_write_once_latch (s t : EntryPointInfoTy) (f g : Nat)
    (h : s.setEntryPointFile f = some t) :
    s.entryPointFile = none ∧
    t.getEntryPointFile = some f ∧
    t.hasEntryPoint = true ∧
    t.setEntryPointFile g = none ∧
    t.markDiagnosedMultipleMainClasses.1.getEntryPointFile = some f ∧
    t.markDiagnosedMainClassWithScript.1.getEntryPointFile = some f ∧
    t.markDiagnosedMultipleMainClasses.1.setEntryPointFile g = none ∧
    t.markDiagnosedMainClassWithScript.1.setEntryPointFile g = none := by
  simp only [EntryPointInfoTy.setEntryPointFile] at h
  by_cases hs : s.entryPointFile = none
  · rw [if_pos (by simp [hs])] at h
    obtain rfl : ({ s with entryPointFile := some f } : EntryPointInfoTy)
        = t := by simpa using h
    simp [hs, EntryPointInfoTy.getEntryPointFile,
      EntryPointInfoTy.hasEntryPoint, EntryPointInfoTy.setEntryPointFile,
      EntryPointInfoTy.markDiagnosedMultipleMainClasses,
      EntryPointInfoTy.markDiagnosedMainClassWithScript]
  · rw [if_neg (by simp [Option.isNone_iff_eq_none, hs])] at h
    exact absurd h (by simp)

/-- Witness for C3 at a concrete record: storing file 1 into the fresh
record succeeds, and a second store into the result is the trap. -/
theorem C3_witness :
    EntryPointInfoTy.init.setEntryPointFile 1
        = some ⟨some 1, false, false⟩ ∧
    (⟨some 1, false, false⟩ : EntryPointInfoTy).setEntryPointFile 2
        = none := by
  refine ⟨by decide, ?_⟩
  exact (C3_entryPoint_write_once_latch EntryPointInfoTy.init
    ⟨some 1, false, false⟩ 1 2 (by decide)).2.2.2.1

/-- **C4**: `markDiagnosedMultipleMainClasses` returns `true` exactly on
its first invocation and `false` on every later one,
`markDiagnosedMainClassWithScript` independently does the same, each flag
once set stays set, and each mark leaves the other flag and the stored
entry-point file untouched. -/
theorem C4_mark_diagnosed_first_time_only (s : EntryPointInfoTy) :
    s.markDiagnosedMultipleMainClasses.2
        = !s.diagnosedMultipleMainClasses ∧
    s.markDiagnosedMultipleMainClasses.1.diagnosedMultipleMainClasses
        = true ∧
    s.markDiagnosedMultipleMainClasses.1.diagnosedMainClassWithScript
        = s.diagnosedMainClassWithScript ∧
    s.markDiagnosedMultipleMainClasses.1.entryPointFile
        = s.entryPointFile ∧
    (s.markDiagnosedMultipleMainClasses.1).markDiagnosedMultipleMainClasses.2
        = false ∧
    s.markDiagnosedMainClassWithScript.2
        = !s.diagnosedMainClassWithScript ∧
    s.markDiagnosedMainClassWithScript.1.diagnosedMainClassWithScript
        = true ∧
    s.markDiagnosedMainClassWithScript.1.diagnosedMultipleMainClasses
        = s.diagnosedMultipleMainClasses ∧
    s.markDiagnosedMainClassWithScript.1.entryPointFile
        = s.entryPointFile ∧
    (s.markDiagnosedMainClassWithScript.1).markDiagnosedMainClassWithScript.2
        = false := by
  simp [EntryPointInfoTy.markDiagnosedMultipleMainClasses,
    EntryPointInfoTy.markDiagnosedMainClassWithScript]

/-- **C5**: every `ImportedModuleDesc` whose construction succeeds has
options that do not contain both `Exported` and `ImplementationOnly`;
constructing one with both flags set is the constructor's assertion
trap. -/
theorem C5_exported_implementationOnly_exclusive
    (m : ImportedModule) (o : ImportOptions) (fname : String) :
    (∀ d, ImportedModuleDesc.make m o fname = some d →
      ¬(d.importOptions.exported = true ∧
        d.importOptions.implementationOnly = true)) ∧
    (o.exported = true → o.implementationOnly = true →
      ImportedModuleDesc.make m o fname = none) := by
  constructor
  · intro d h hboth
    unfold ImportedModuleDesc.make at h
    by_cases hc : (o.exported && o.implementationOnly) = true
    · rw [if_pos hc] at h
      simp at h
    · rw [if_neg hc] at h
      simp only [Option.some.injEq] at h
      rw [← h] at hboth
      simp only [Bool.and_eq_true] at hc
      exact hc ⟨hboth.1, hboth.2⟩
  · intro h1 h2
    unfold ImportedModuleDesc.make
    rw [if_pos (by simp [h1, h2])]

/-- Witness for C5 at concrete options: construction with both flags set
traps, and a successful construction's options exclude the combination. -/
theorem C5_witness :
    ImportedModuleDesc.make ([], 0) ⟨true, false, false, true⟩ "" = none ∧
    ¬((⟨([], 0), ⟨true, false, false, false⟩, ""⟩ :
        ImportedModuleDesc).importOptions.exported = true ∧
      (⟨([], 0), ⟨true, false, false, false⟩, ""⟩ :
        ImportedModuleDesc).importOptions.implementationOnly = true) :=
  ⟨(C5_exported_implementationOnly_exclusive ([], 0)
      ⟨true, false, false, true⟩ "").2 rfl rfl,
   (C5_exported_implementationOnly_exclusive ([], 0)
      ⟨true, false, false, false⟩ "").1 _ (by decide)⟩

/-- **C6**: under the precondition that the access path has length at most
one, `matchesAccessPath` does not trap and returns `true` iff the path is
empty or its single identifier matches the name; in particular an empty
path is unrestricted and matches every name. -/
theorem C6_matchesAccessPath_spec (matchesRef : Identifier → DeclName → Bool)
    (path : AccessPathTy) (name : DeclName) (h : path.length ≤ 1) :
    ∃ b, ModuleDecl.matchesAccessPath matchesRef path name = some b ∧
      (b = true ↔
        path = [] ∨ ∃ e, path = [e] ∧ matchesRef e.1 name = true) := by
  rcases path with _ | ⟨e, _ | ⟨e2, rest⟩⟩
  · exact ⟨true, by simp [ModuleDecl.matchesAccessPath]⟩
  · refine ⟨matchesRef e.1 name, by simp [ModuleDecl.matchesAccessPath], ?_⟩
    constructor
    · intro hb
      exact Or.inr ⟨e, rfl, hb⟩
    · rintro (hemp | ⟨e', he, hm⟩)
      · exact absurd hemp (by simp)
      · simp only [List.cons.injEq, and_true] at he
        rw [he]
        exact hm
  · simp only [List.length_cons] at h
    omega

/-- Witness for C6 at a concrete path of length one. -/
theorem C6_witness :
    ∃ b, ModuleDecl.matchesAccessPath (fun i _ => decide (i = "Foo"))
        [("Foo", 0)] 7 = some b ∧
      (b = true ↔
        ([("Foo", 0)] : AccessPathTy) = [] ∨
        ∃ e, ([("Foo", 0)] : AccessPathTy) = [e] ∧
          decide (e.1 = "Foo") = true) :=
  C6_matchesAccessPath_spec (fun i _ => decide (i = "Foo"))
    [("Foo", 0)] 7 (by decide)

/-- **C7**: the default `FileUnit::hasEntryPoint` answers `false` for every
non-`SourceFile` variant, and `SourceFile::hasEntryPoint` is `true` iff the
file is in script mode (its kind is `Main` or `REPL`) or its `MainClass` is
non-null. -/
theorem C7_hasEntryPoint_dispatch (fu : FileUnit) (sf : SourceFile) :
    ((∀ s, fu ≠ FileUnit.source s) → fu.hasEntryPoint = false) ∧
    ((FileUnit.source sf).hasEntryPoint = true ↔
      (sf.kind = SourceFileKind.Main ∨ sf.kind = SourceFileKind.REPL) ∨
      sf.mainClass.isSome = true) ∧
    (sf.isScriptMode = true ↔
      sf.kind = SourceFileKind.Main ∨ sf.kind = SourceFileKind.REPL) := by
  obtain ⟨k, mc, imps⟩ := sf
  refine ⟨?_, ?_, ?_⟩
  · intro hns
    cases fu with
    | source s => exact absurd rfl (hns s)
    | builtin => rfl
    | loaded lk lf => rfl
  · cases k <;>
      simp [FileUnit.hasEntryPoint, SourceFile.hasEntryPoint,
        SourceFile.isScriptMode, SourceFile.hasMainClass,
        SourceFile.getMainClass]
  · cases k <;> simp [SourceFile.isScriptMode]

/-- Witness for C7: the builtin unit, which is not a `SourceFile`, has no
entry point. -/
theorem C7_witness : FileUnit.hasEntryPoint FileUnit.builtin = false :=
  (C7_hasEntryPoint_dispatch FileUnit.builtin
      ⟨SourceFileKind.Main, none, []⟩).1
    (fun _ h => FileUnit.noConfusion h)

/-- **C8**: the default `FileUnit::getImportedModulesForLookup` returns
exactly `getImportedModules` under the `Public`-only filter, and the
default filter of `ModuleDecl::getImportedModules` is `Public` only —
containing `Public` and neither `Private` nor `ImplementationOnly`. -/
theorem C8_default_import_filters (fu : FileUnit) (m : ModuleDeclState) :
    fu.getImportedModulesForLookup
        = fu.getImportedModules ImportFilter.publicOnly ∧
    m.getImportedModulesDefault
        = m.getImportedModules ImportFilter.publicOnly ∧
    ImportFilter.publicOnly.contains ImportFilterKind.Public = true ∧
    ImportFilter.publicOnly.contains ImportFilterKind.Private = false ∧
    ImportFilter.publicOnly.contains ImportFilterKind.ImplementationOnly
        = false :=
  ⟨rfl, rfl, rfl, rfl, rfl⟩

/-- **C9**: `BuiltinUnit::getDiscriminatorForPrivateValue` is the
unconditional programming-error trap: for every declaration argument it
traps and never returns an identifier. -/
theorem C9_builtin_discriminator_trap (d : ValueDecl) :
    BuiltinUnit.getDiscriminatorForPrivateValue d = none ∧
    ∀ i : Identifier, BuiltinUnit.getDiscriminatorForPrivateValue d ≠ some i :=
  ⟨rfl, fun _ h => Option.noConfusion h⟩

/-- Witness for C9 at a concrete declaration. -/
theorem C9_witness :
    BuiltinUnit.getDiscriminatorForPrivateValue 0 = none :=
  (C9_builtin_discriminator_trap 0).1

/-- **C10**: the private-declaration filename map round-trips: a successful
`addFilenameForPrivateDecl` — whose precondition is that the declaration is
unmapped or already mapped to the same id — makes
`getFilenameForPrivateDecl` return the id, re-adding the same pair leaves
the map unchanged, and an unmapped declaration yields the empty string
rather than a failure. -/
theorem C10_private_filename_roundtrip (lf lf' : LoadedFile)
    (decl : ValueDecl) (id : Identifier)
    (h : lf.addFilenameForPrivateDecl decl id = some lf') :
    lf'.getFilenameForPrivateDecl decl = id ∧
    lf'.addFilenameForPrivateDecl decl id = some lf' ∧
    ∀ (lf₀ : LoadedFile) (d : ValueDecl),
      lf₀.filenameForPrivateDecls d = none →
      lf₀.getFilenameForPrivateDecl d = "" := by
  unfold LoadedFile.addFilenameForPrivateDecl at h
  by_cases hc : lf.filenameForPrivateDecls decl = none ∨
      lf.filenameForPrivateDecls decl = some id
  · rw [if_pos hc] at h
    obtain rfl : (⟨fun d => if d = decl then some id
        else lf.filenameForPrivateDecls d⟩ : LoadedFile) = lf' := by
      simpa using h
    refine ⟨by simp [LoadedFile.getFilenameForPrivateDecl], ?_, ?_⟩
    · unfold LoadedFile.addFilenameForPrivateDecl
      rw [if_pos (Or.inr (by simp))]
      have hfun : (fun d => if d = decl then some id
          else if d = decl then some id else lf.filenameForPrivateDecls d)
          = (fun d => if d = decl then some id
            else lf.filenameForPrivateDecls d) := by
        funext d
        by_cases hd : d = decl <;> simp [hd]
      exact congrArg (fun f => some (LoadedFile.mk f)) hfun
    · intro lf₀ d h0
      simp [LoadedFile.getFilenameForPrivateDecl, h0]
  · rw [if_neg hc] at h
    exact absurd h (by simp)

/-- Witness for C10 at a concrete map: adding decl 0 ↦ "a" to the empty
map succeeds and the lookup round-trips. -/
theorem C10_witness :
    LoadedFile.addFilenameForPrivateDecl ⟨fun _ => none⟩ 0 "a"
        = some ⟨fun d => if d = 0 then some "a" else none⟩ ∧
    LoadedFile.getFilenameForPrivateDecl
        ⟨fun d => if d = 0 then some "a" else none⟩ 0 = "a" := by
  have h : LoadedFile.addFilenameForPrivateDecl ⟨fun _ => none⟩ 0 "a"
      = some ⟨fun d => if d = 0 then some "a" else none⟩ := by
    simp [LoadedFile.addFilenameForPrivateDecl]
  exact ⟨h, (C10_private_filename_roundtrip _ _ 0 "a" h).1⟩

end SwiftModule
